import Mathlib

/-!
Shallow embedding of the resilience and self-modification core of the
telegram-claude-bot repository.

The definitions below are translated from `src/resilience.py` (the
`CircuitBreaker` class, the `unstoppable` decorator with its async and
sync wrappers, `attempt_auto_fix`, `learn_from_failure`) and from
`src/evolution.py` (`check_and_rollback`, the patch-application loop of
`self_modify_code`).

Modelling conventions:
- Python `time.time()` float timestamps and backoff durations are modelled
  as rationals; wall-clock instants are passed explicitly where the code
  reads the clock.
- A directory on disk is an association list from file name to file
  content; file names inside a directory are unique.
- Exceptions are modelled with `Except`: a wrapped operation's behaviour
  is a function from the call index to `Except ErrInfo A`.
- The `py_compile` syntax check inside `self_modify_code` is an opaque
  oracle on the candidate content, passed in as the `checker` parameter.
-/

/-! ### Configuration constants, src/resilience.py lines 24-33 -/

def MAX_RETRIES : Nat := 5

def INITIAL_BACKOFF : ℚ := 1

def MAX_BACKOFF : ℚ := 60

def BACKOFF_MULTIPLIER : ℚ := 2

def FAILURE_THRESHOLD : Nat := 5

def SUCCESS_THRESHOLD : Nat := 2

def TIMEOUT_DURATION : ℚ := 300

/-! ### CircuitBreaker, src/resilience.py lines 40-82 -/

/-- State of one `CircuitBreaker` instance: `failures`, `successes`,
`is_open`, `last_failure_time` (None until a failure is recorded). -/
structure CBState where
  failures : Nat
  successes : Nat
  isOpen : Bool
  lastFailureTime : Option ℚ
deriving DecidableEq

/-- Embeds `CircuitBreaker.record_success` (lines 50-57): increment the
success counter; if the breaker is open and the counter reaches
`SUCCESS_THRESHOLD`, close it and zero both counters. -/
def record_success (s : CBState) : CBState :=
  let s1 : CBState := { s with successes := s.successes + 1 }
  if s1.isOpen = true ∧ SUCCESS_THRESHOLD ≤ s1.successes then
    { s1 with isOpen := false, failures := 0, successes := 0 }
  else s1

/-- Embeds `CircuitBreaker.record_failure` (lines 59-68): increment the
failure counter, zero the success counter, stamp the failure time; open
the breaker once `failures` reaches `FAILURE_THRESHOLD`. -/
def record_failure (s : CBState) (now : ℚ) : CBState :=
  let s1 : CBState := { s with failures := s.failures + 1, successes := 0,
                               lastFailureTime := some now }
  if FAILURE_THRESHOLD ≤ s1.failures then { s1 with isOpen := true } else s1

/-- Embeds `CircuitBreaker.can_execute` (lines 70-82). Returns the boolean
result together with the possibly mutated breaker state. Python's
`if self.last_failure_time and ...` treats both `None` and `0.0` as falsy,
hence the `t ≠ 0` conjunct. -/
def can_execute (s : CBState) (now : ℚ) : Bool × CBState :=
  if s.isOpen = false then (true, s)
  else
    match s.lastFailureTime with
    | some t =>
        if t ≠ 0 ∧ TIMEOUT_DURATION < now - t then
          (true, { s with isOpen := false, failures := 0 })
        else (false, s)
    | none => (false, s)

/-- An externally observable event fed to one circuit breaker: a recorded
success, or a recorded failure stamped with the clock value. -/
inductive CBEvent where
  | succ : CBEvent
  | fail : ℚ → CBEvent
deriving DecidableEq

def applyEvent (s : CBState) : CBEvent → CBState
  | CBEvent.succ => record_success s
  | CBEvent.fail t => record_failure s t

def runEvents (s : CBState) (evs : List CBEvent) : CBState :=
  evs.foldl applyEvent s

def countFails : List CBEvent → Nat
  | [] => 0
  | CBEvent.succ :: rest => countFails rest
  | CBEvent.fail _ :: rest => countFails rest + 1

/-! ### Character-level string helpers

Python substring membership (`old in content`), first-occurrence
replacement (`content.replace(old, new, 1)`), lower-casing and slicing
are modelled on the character list underlying a `String`, so every
definition is kernel-executable. -/

/-- Leftmost occurrence of `pat` inside a character list: returns the
characters before the match and the characters after it. -/
def firstMatch (pat : List Char) : List Char → Option (List Char × List Char)
  | [] => if pat.isPrefixOf ([] : List Char) then some ([], []) else none
  | c :: rest =>
      if pat.isPrefixOf (c :: rest) then some ([], (c :: rest).drop pat.length)
      else (firstMatch pat rest).map (fun pr => (c :: pr.1, pr.2))

/-- Python `pat in hay` for strings. -/
def containsSub (hay pat : String) : Bool :=
  (firstMatch pat.data hay.data).isSome

/-- Python `s.replace(old, new, 1)`: replace the leftmost occurrence only. -/
def replaceFirst (s old new : String) : String :=
  match firstMatch old.data s.data with
  | none => s
  | some pr => ⟨pr.1 ++ new.data ++ pr.2⟩

/-- Python `s.lower()` (ASCII-sufficient for the patterns involved). -/
def toLowerStr (s : String) : String := ⟨s.data.map Char.toLower⟩

/-- Python `s[:n]`. -/
def takeStr (s : String) (n : Nat) : String := ⟨s.data.take n⟩

/-! ### attempt_auto_fix, src/resilience.py lines 291-330 -/

/-- Error information carried by a raised exception: the exception type
name and `str(e)`. -/
structure ErrInfo where
  etype : String
  msg : String
deriving DecidableEq

/-- Embeds `attempt_auto_fix`: returns True exactly when at least one of
the four substring heuristics on the error message fires (the `429`
check runs on the original message, the others on its lower-casing).
`funcName` and `errType` are only logged by the source. -/
def attempt_auto_fix (funcName errType errMsg : String) : Bool :=
  let m := toLowerStr errMsg
  containsSub m "api" || containsSub m "auth" || containsSub m "key" ||
  containsSub m "rate" || containsSub m "limit" || containsSub errMsg "429" ||
  containsSub m "connection" || containsSub m "timeout" || containsSub m "network" ||
  containsSub m "database" || containsSub m "sqlite"

/-! ### The unstoppable decorator, src/resilience.py lines 96-241 -/

/-- Observable outcome of one wrapped call: the returned value, how many
times the wrapped operation was invoked, how many times
`attempt_auto_fix` ran, the backoff sleeps issued between attempts (in
seconds, in order), whether `learn_from_failure` was invoked, and the
final breaker state. -/
structure WrapResult (A : Type) where
  value : A
  calls : Nat
  fixRuns : Nat
  sleeps : List ℚ
  learned : Bool
  cb : CBState

/-- Retry loop of `async_wrapper` (lines 129-196), indexed by the number
of remaining loop iterations `k`; the current attempt index is
`maxRetries - k`. `behavior i` is the outcome of the i-th invocation of
the wrapped operation; index `maxRetries` is the extra post-remediation
attempt. `times i` is the clock when attempt `i` fails. -/
def asyncGo {A : Type} (behavior : Nat → Except ErrInfo A) (times : Nat → ℚ)
    (maxRetries : Nat) (critical : Bool) (funcName : String) (fallback : A) :
    Nat → CBState → ℚ → List ℚ → Nat → Nat → WrapResult A
  | 0, cb, _, sleeps, calls, fixes => ⟨fallback, calls, fixes, sleeps, true, cb⟩
  | k + 1, cb, bo, sleeps, calls, fixes =>
    match behavior (maxRetries - (k + 1)) with
    | Except.ok v => ⟨v, calls + 1, fixes, sleeps, false, record_success cb⟩
    | Except.error e =>
        if k = 0 then
          if critical then
            if attempt_auto_fix funcName e.etype e.msg then
              match behavior maxRetries with
              | Except.ok v =>
                  ⟨v, calls + 2, fixes + 1, sleeps, false,
                    record_success (record_failure cb (times (maxRetries - (k + 1))))⟩
              | Except.error _ =>
                  ⟨fallback, calls + 2, fixes + 1, sleeps, true,
                    record_failure cb (times (maxRetries - (k + 1)))⟩
            else
              ⟨fallback, calls + 1, fixes + 1, sleeps, true,
                record_failure cb (times (maxRetries - (k + 1)))⟩
          else
            ⟨fallback, calls + 1, fixes, sleeps, true,
              record_failure cb (times (maxRetries - (k + 1)))⟩
        else
          asyncGo behavior times maxRetries critical funcName fallback k
            (record_failure cb (times (maxRetries - (k + 1))))
            (min (bo * BACKOFF_MULTIPLIER) MAX_BACKOFF) (sleeps ++ [bo]) (calls + 1) fixes

/-- Embeds `async_wrapper` (lines 120-196): circuit-breaker gate, then
the retry loop. A refused gate returns the fallback with zero calls. -/
def unstoppable_async {A : Type} (maxRetries : Nat) (fallback : A) (critical : Bool)
    (funcName : String) (behavior : Nat → Except ErrInfo A) (times : Nat → ℚ)
    (now : ℚ) (cb : CBState) : WrapResult A :=
  let ce := can_execute cb now
  if ce.1 = true then
    asyncGo behavior times maxRetries critical funcName fallback
      maxRetries ce.2 INITIAL_BACKOFF [] 0 0
  else ⟨fallback, 0, 0, [], false, ce.2⟩

/-- Retry loop of `sync_wrapper` (lines 211-233): no auto-fix branch and
no learn-from-failure call exist in the synchronous source path. -/
def syncGo {A : Type} (behavior : Nat → Except ErrInfo A) (times : Nat → ℚ)
    (maxRetries : Nat) (fallback : A) :
    Nat → CBState → ℚ → List ℚ → Nat → WrapResult A
  | 0, cb, _, sleeps, calls => ⟨fallback, calls, 0, sleeps, false, cb⟩
  | k + 1, cb, bo, sleeps, calls =>
    match behavior (maxRetries - (k + 1)) with
    | Except.ok v => ⟨v, calls + 1, 0, sleeps, false, record_success cb⟩
    | Except.error _ =>
        if k = 0 then
          ⟨fallback, calls + 1, 0, sleeps, false,
            record_failure cb (times (maxRetries - (k + 1)))⟩
        else
          syncGo behavior times maxRetries fallback k
            (record_failure cb (times (maxRetries - (k + 1))))
            (min (bo * BACKOFF_MULTIPLIER) MAX_BACKOFF) (sleeps ++ [bo]) (calls + 1)

/-- Embeds `sync_wrapper` (lines 199-233). The decorator's `critical`
argument is in scope but the synchronous source path never reads it. -/
def unstoppable_sync {A : Type} (maxRetries : Nat) (fallback : A) (critical : Bool)
    (funcName : String) (behavior : Nat → Except ErrInfo A) (times : Nat → ℚ)
    (now : ℚ) (cb : CBState) : WrapResult A :=
  let ce := can_execute cb now
  if ce.1 = true then
    syncGo behavior times maxRetries fallback maxRetries ce.2 INITIAL_BACKOFF [] 0
  else ⟨fallback, 0, 0, [], false, ce.2⟩

/-! ### learn_from_failure, src/resilience.py lines 333-357 -/

/-- One failure-learning record: the function name, the error message
truncated to 500 characters, and the error-pattern summary string. -/
structure LearnEntry where
  func : String
  err : String
  patterns : String
deriving DecidableEq

/-- Python `l[-n:]`. -/
def lastN {α : Type} (l : List α) (n : Nat) : List α := l.drop (l.length - n)

/-- Embeds the state change of `learn_from_failure` on the evolution
document's `failure_learnings` list: append one record (message truncated
to 500 characters) and keep only the last 100 entries. -/
def learn_from_failure (hist : List LearnEntry) (funcName errMsg pats : String) :
    List LearnEntry :=
  lastN (hist ++ [⟨funcName, takeStr errMsg 500, pats⟩]) 100

/-! ### Directories, src/evolution.py -/

/-- A directory: file name to file content, names unique. -/
abbrev Dir := List (String × String)

def lookupFile : Dir → String → Option String
  | [], _ => none
  | p :: rest, name => if p.1 = name then some p.2 else lookupFile rest name

/-- Write (or overwrite) one file in a directory, as `shutil.copy2` or
`open(..., "w")` does. -/
def setFile : Dir → String → String → Dir
  | [], name, content => [(name, content)]
  | p :: rest, name, content =>
      if p.1 = name then (name, content) :: rest else p :: setFile rest name content

/-- The rollback copy loop of `check_and_rollback` (lines 69-72): copy
every backup file over the application directory, in listing order. -/
def copyBack : Dir → Dir → Dir
  | a, [] => a
  | a, q :: rest => copyBack (setFile a q.1 q.2) rest

/-! ### check_and_rollback, src/evolution.py lines 61-81 -/

/-- Filesystem state seen by the crash-loop guard: the application
directory, the backup directory (`none` when absent), and the two marker
files. -/
structure GuardState where
  app : Dir
  backup : Option Dir
  modMarker : Bool
  crashMarker : Bool
deriving DecidableEq

/-- Embeds `check_and_rollback`: no modified marker means no action; both
markers present means restore every backup file, delete the backup
directory and remove both markers; only the modified marker present
means write the crashed marker and start the stability watch. -/
def check_and_rollback (s : GuardState) : GuardState :=
  if s.modMarker = false then s
  else if s.crashMarker = true then
    match s.backup with
    | some b =>
        { app := copyBack s.app b, backup := none,
          modMarker := false, crashMarker := false }
    | none => { s with modMarker := false, crashMarker := false }
  else { s with crashMarker := true }

/-! ### self_modify_code patch loop, src/evolution.py lines 585-729 -/

/-- Allow-list of self-modifiable files (lines 47-53). -/
def MODIFIABLE_FILES : List String :=
  ["moltbook_agent.py", "web_learner.py", "evolution.py",
   "web_tools.py", "claude_client.py"]

/-- One proposed patch from the model: target file, exact text to
replace, replacement text. -/
structure Patch where
  file : String
  old : String
  new : String
deriving DecidableEq

/-- State of the self-modification cycle: the application directory and
the backup directory contents. -/
structure ModState where
  files : Dir
  backup : Dir
deriving DecidableEq

/-- Embeds one iteration of the patch loop in `self_modify_code`
(lines 662-707): the guard chain (empty fields or old = new; allow-list;
file on disk; old found verbatim), then the first-occurrence replacement,
the `py_compile` syntax check (the `checker` oracle), the backup copy of
the current content, and the write of the new content. -/
def apply_patch (checker : String → Bool) (st : ModState) (p : Patch) : ModState :=
  if p.file = "" ∨ p.old = "" ∨ p.new = "" ∨ p.old = p.new then st
  else if p.file ∈ MODIFIABLE_FILES then
    match lookupFile st.files p.file with
    | none => st
    | some content =>
        if containsSub content p.old = true then
          let newContent := replaceFirst content p.old p.new
          if checker newContent = true then
            { files := setFile st.files p.file newContent,
              backup := setFile st.backup p.file content }
          else st
        else st
  else st

/-- The whole patch loop: patches applied in order against the
progressively updated state. -/
def apply_patches (checker : String → Bool) (st : ModState) (ps : List Patch) :
    ModState :=
  ps.foldl (apply_patch checker) st

/-! ### Specification-side backoff sequence -/

/-- The backoff values slept through, starting from `b`, for `m` sleeps:
each value doubles and is capped at 60, exactly as the wrapper updates
its local `backoff` variable. -/
def backoffSeq : ℚ → Nat → List ℚ
  | _, 0 => []
  | b, m + 1 => b :: backoffSeq (min (b * BACKOFF_MULTIPLIER) MAX_BACKOFF) m

/-- The spec's words for the sleep schedule: the doubling sequence
1, 2, 4, ... with each step capped at 60 seconds. -/
def specSleeps (n : Nat) : List ℚ :=
  (List.range n).map (fun i => min ((2 : ℚ) ^ i) 60)

/-! ## Helper lemmas about the circuit breaker -/

theorem record_failure_failures (s : CBState) (t : ℚ) :
    (record_failure s t).failures = s.failures + 1 := by
  simp only [record_failure]
  split <;> rfl

theorem record_failure_successes (s : CBState) (t : ℚ) :
    (record_failure s t).successes = 0 := by
  simp only [record_failure]
  split <;> rfl

theorem record_failure_lastFailureTime (s : CBState) (t : ℚ) :
    (record_failure s t).lastFailureTime = some t := by
  simp only [record_failure]
  split <;> rfl

theorem record_failure_isOpen_of_ge (s : CBState) (t : ℚ)
    (h : FAILURE_THRESHOLD ≤ s.failures + 1) :
    (record_failure s t).isOpen = true := by
  simp only [record_failure]
  rw [if_pos h]

theorem record_failure_isOpen_of_lt (s : CBState) (t : ℚ)
    (h : s.failures + 1 < FAILURE_THRESHOLD) :
    (record_failure s t).isOpen = s.isOpen := by
  simp only [record_failure]
  rw [if_neg (by omega)]

theorem record_success_closed (s : CBState) (h : s.isOpen = false) :
    record_success s = { s with successes := s.successes + 1 } := by
  simp only [record_success]
  rw [if_neg]
  intro hc
  rw [h] at hc
  exact Bool.false_ne_true hc.1

theorem can_execute_closed (s : CBState) (now : ℚ) (h : s.isOpen = false) :
    can_execute s now = (true, s) := by
  simp [can_execute, h]

theorem can_execute_open_blocked (s : CBState) (t now : ℚ) (h : s.isOpen = true)
    (h2 : s.lastFailureTime = some t) (h3 : ¬ TIMEOUT_DURATION < now - t) :
    can_execute s now = (false, s) := by
  simp [can_execute, h, h2, h3]

theorem can_execute_probe (s : CBState) (t now : ℚ) (h : s.isOpen = true)
    (h2 : s.lastFailureTime = some t) (ht : t ≠ 0)
    (h3 : TIMEOUT_DURATION < now - t) :
    can_execute s now = (true, { s with isOpen := false, failures := 0 }) := by
  simp [can_execute, h, h2, ht, h3]

/-! ## Helper lemmas about directories -/

theorem lookup_set_self (d : Dir) (n c : String) :
    lookupFile (setFile d n c) n = some c := by
  induction d with
  | nil => simp [setFile, lookupFile]
  | cons p rest ih =>
      by_cases h : p.1 = n
      · simp [setFile, lookupFile, h]
      · simp [setFile, lookupFile, h, ih]

theorem lookup_set_other (d : Dir) (n c m : String) (h : m ≠ n) :
    lookupFile (setFile d n c) m = lookupFile d m := by
  induction d with
  | nil => simp [setFile, lookupFile, Ne.symm h]
  | cons p rest ih =>
      by_cases hp : p.1 = n
      · have hm : ¬ p.1 = m := by rw [hp]; exact Ne.symm h
        simp [setFile, lookupFile, hp, Ne.symm h, hm]
      · by_cases hm : p.1 = m
        · simp [setFile, lookupFile, hp, hm, h]
        · simp [setFile, lookupFile, hp, hm, ih]

theorem lookup_copyBack_not_mem :
    ∀ (b a : Dir) (f : String), f ∉ b.map Prod.fst →
      lookupFile (copyBack a b) f = lookupFile a f := by
  intro b
  induction b with
  | nil => intro a f _; rfl
  | cons q rest ih =>
      intro a f hf
      rw [List.map_cons, List.mem_cons] at hf
      push_neg at hf
      rw [copyBack, ih _ _ hf.2]
      exact lookup_set_other _ _ _ _ hf.1

theorem lookup_copyBack_mem :
    ∀ (b a : Dir) (f c : String), (b.map Prod.fst).Nodup → (f, c) ∈ b →
      lookupFile (copyBack a b) f = some c := by
  intro b
  induction b with
  | nil => intro a f c _ hm; cases hm
  | cons q rest ih =>
      intro a f c hnd hm
      rw [List.map_cons, List.nodup_cons] at hnd
      rcases List.mem_cons.mp hm with hq | hrest
      · rw [copyBack, lookup_copyBack_not_mem rest _ f (by rw [← hq] at hnd; exact hnd.1)]
        rw [← hq]
        exact lookup_set_self _ _ _
      · exact ih _ _ _ hnd.2 hrest

/-! ## C1: crash-loop guard restores the backup -/

/-- C1: if at startup both the modified marker and the crashed marker are
present, `check_and_rollback` copies every file found in the backup
directory over the corresponding file of the application directory,
deletes the backup directory, and removes both marker files. -/
theorem C1_crash_rollback (s : GuardState) (b : Dir)
    (h1 : s.modMarker = true) (h2 : s.crashMarker = true) (h3 : s.backup = some b)
    (h4 : (b.map Prod.fst).Nodup) :
    (check_and_rollback s).backup = none ∧
    (check_and_rollback s).modMarker = false ∧
    (check_and_rollback s).crashMarker = false ∧
    ∀ f c, (f, c) ∈ b → lookupFile (check_and_rollback s).app f = some c := by
  have hs : check_and_rollback s =
      { app := copyBack s.app b, backup := none,
        modMarker := false, crashMarker := false } := by
    simp [check_and_rollback, h1, h2, h3]
  rw [hs]
  exact ⟨rfl, rfl, rfl, fun f c hm => lookup_copyBack_mem b s.app f c h4 hm⟩

/-- Witness for C1 on a concrete filesystem: a patched `web_tools.py` is
restored to its backed-up content, the backup directory disappears and
both markers are removed. -/
theorem C1_crash_rollback_witness :
    (check_and_rollback ⟨[("web_tools.py", "patched")],
        some [("web_tools.py", "original")], true, true⟩).backup = none ∧
    (check_and_rollback ⟨[("web_tools.py", "patched")],
        some [("web_tools.py", "original")], true, true⟩).modMarker = false ∧
    (check_and_rollback ⟨[("web_tools.py", "patched")],
        some [("web_tools.py", "original")], true, true⟩).crashMarker = false ∧
    lookupFile (check_and_rollback ⟨[("web_tools.py", "patched")],
        some [("web_tools.py", "original")], true, true⟩).app "web_tools.py"
      = some "original" := by
  have h := C1_crash_rollback
    ⟨[("web_tools.py", "patched")], some [("web_tools.py", "original")], true, true⟩
    [("web_tools.py", "original")] rfl rfl rfl (by decide)
  exact ⟨h.1, h.2.1, h.2.2.1, h.2.2.2 "web_tools.py" "original" (by decide)⟩

/-! ## C2: probe semantics of an open breaker (corrected) -/

/-- C2 counterexample: with an open breaker whose last failure was 400s
ago (timeout 300s), the first `can_execute` returns true, and the very
next call — before any success or failure is recorded — returns true
again, because the probe path already set `is_open = False`. The claim's
"subsequent calls return false until a success or failure is recorded"
is therefore false on the code. -/
theorem C2_probe_counterexample :
    (can_execute ⟨5, 0, true, some 100⟩ 500).1 = true ∧
    (can_execute (can_execute ⟨5, 0, true, some 100⟩ 500).2 500).1 = true := by
  have h : can_execute ⟨5, 0, true, some 100⟩ 500
      = (true, ⟨0, 0, false, some 100⟩) := by
    have := can_execute_probe ⟨5, 0, true, some 100⟩ 100 500 rfl rfl
      (by norm_num) (by norm_num [TIMEOUT_DURATION])
    simpa using this
  rw [h]
  exact ⟨rfl, rfl⟩

/-- C2 amended: while open, once the timeout has elapsed since the last
recorded failure (and that timestamp is nonzero), `can_execute` closes
the breaker, resets the failure counter, and returns true; every
subsequent call also returns true because the breaker is now closed
(rather than returning false until a success or failure is recorded).
Separately, while open with a zero success counter, recording
`SUCCESS_THRESHOLD` = 2 consecutive successes closes the breaker and
resets both counters to zero. -/
theorem C2_probe_amended :
    (∀ (s : CBState) (t now : ℚ), s.isOpen = true → s.lastFailureTime = some t →
       t ≠ 0 → TIMEOUT_DURATION < now - t →
       can_execute s now = (true, { s with isOpen := false, failures := 0 })) ∧
    (∀ (s : CBState) (t now now2 : ℚ), s.isOpen = true → s.lastFailureTime = some t →
       t ≠ 0 → TIMEOUT_DURATION < now - t →
       (can_execute (can_execute s now).2 now2).1 = true) ∧
    (∀ s : CBState, s.isOpen = true → s.successes = 0 →
       record_success (record_success s) =
         { s with isOpen := false, failures := 0, successes := 0 }) := by
  refine ⟨fun s t now h h2 ht h3 => can_execute_probe s t now h h2 ht h3,
    fun s t now now2 h h2 ht h3 => ?_, fun s h hsucc => ?_⟩
  · rw [can_execute_probe s t now h h2 ht h3]
    rw [can_execute_closed _ now2 rfl]
  · obtain ⟨f, sc, o, l⟩ := s
    simp only at h hsucc
    subst h
    subst hsucc
    simp [record_success, SUCCESS_THRESHOLD]

/-- Witness for C2 amended at concrete states: probe at 400s elapsed
returns true and closes; the following call returns true again; two
successes on an open breaker with zero counters close it. -/
theorem C2_probe_amended_witness :
    can_execute ⟨5, 0, true, some 100⟩ 500
      = (true, ⟨0, 0, false, some 100⟩) ∧
    (can_execute (can_execute ⟨5, 0, true, some 100⟩ 500).2 500).1 = true ∧
    record_success (record_success ⟨3, 0, true, some 7⟩) = ⟨0, 0, false, some 7⟩ := by
  refine ⟨?_, ?_, ?_⟩
  · have := C2_probe_amended.1 ⟨5, 0, true, some 100⟩ 100 500 rfl rfl
      (by norm_num) (by norm_num [TIMEOUT_DURATION])
    simpa using this
  · exact C2_probe_amended.2.1 ⟨5, 0, true, some 100⟩ 100 500 500 rfl rfl
      (by norm_num) (by norm_num [TIMEOUT_DURATION])
  · have := C2_probe_amended.2.2 ⟨3, 0, true, some 7⟩ rfl rfl
    simpa using this

/-! ## C5: threshold consecutive failures open the breaker -/

/-- C5: from any starting state, five consecutive `record_failure` calls
with no intervening `record_success` leave the breaker open, and every
`can_execute` call made strictly before `TIMEOUT_DURATION` has elapsed
since the last recorded failure returns false and leaves the state
unchanged. -/
theorem C5_breaker_opens (s s5 : CBState) (t1 t2 t3 t4 t5 now : ℚ)
    (hs5 : s5 = record_failure (record_failure (record_failure (record_failure
      (record_failure s t1) t2) t3) t4) t5)
    (hnow : now - t5 < TIMEOUT_DURATION) :
    s5.isOpen = true ∧ can_execute s5 now = (false, s5) := by
  have hf : (record_failure (record_failure (record_failure
      (record_failure s t1) t2) t3) t4).failures = s.failures + 4 := by
    rw [record_failure_failures, record_failure_failures,
      record_failure_failures, record_failure_failures]
  have hopen : s5.isOpen = true := by
    rw [hs5]
    exact record_failure_isOpen_of_ge _ t5
      (by rw [hf]; simp only [FAILURE_THRESHOLD]; omega)
  have hlast : s5.lastFailureTime = some t5 := by
    rw [hs5]; exact record_failure_lastFailureTime _ t5
  exact ⟨hopen, can_execute_open_blocked s5 t5 now hopen hlast (by linarith)⟩

/-- Witness for C5: five failures at times 10..14 from a fresh breaker;
at time 100 (86s after the last failure) execution is still refused. -/
theorem C5_breaker_opens_witness :
    (record_failure (record_failure (record_failure (record_failure
      (record_failure ⟨0, 0, false, none⟩ 10) 11) 12) 13) 14).isOpen = true ∧
    can_execute (record_failure (record_failure (record_failure (record_failure
      (record_failure ⟨0, 0, false, none⟩ 10) 11) 12) 13) 14) 100
      = (false, record_failure (record_failure (record_failure (record_failure
          (record_failure ⟨0, 0, false, none⟩ 10) 11) 12) 13) 14) :=
  C5_breaker_opens ⟨0, 0, false, none⟩ _ 10 11 12 13 14 100 rfl
    (by norm_num [TIMEOUT_DURATION])

/-! ## C10: the opening condition counts cumulative failures -/

/-- C10: `record_success` on a closed breaker does not reset the failure
counter; consequently, starting closed, any event sequence with at most
four failures (successes interleaved anywhere) leaves the breaker closed
with the failure counter equal to the cumulative failure count, and one
more failure as soon as the cumulative count reaches
`FAILURE_THRESHOLD` = 5 opens the breaker. -/
theorem C10_cumulative_failures :
    (∀ s : CBState, s.isOpen = false →
       (record_success s).failures = s.failures ∧ (record_success s).isOpen = false) ∧
    (∀ (evs : List CBEvent) (s : CBState), s.isOpen = false →
       s.failures + countFails evs ≤ 4 →
       (runEvents s evs).isOpen = false ∧
       (runEvents s evs).failures = s.failures + countFails evs) ∧
    (∀ (evs : List CBEvent) (s : CBState) (t : ℚ), s.isOpen = false →
       s.failures + countFails evs = 4 →
       (runEvents s (evs ++ [CBEvent.fail t])).isOpen = true) := by
  have hpart1 : ∀ s : CBState, s.isOpen = false →
      (record_success s).failures = s.failures ∧ (record_success s).isOpen = false := by
    intro s h
    rw [record_success_closed s h]
    exact ⟨rfl, h⟩
  have hpart2 : ∀ (evs : List CBEvent) (s : CBState), s.isOpen = false →
      s.failures + countFails evs ≤ 4 →
      (runEvents s evs).isOpen = false ∧
      (runEvents s evs).failures = s.failures + countFails evs := by
    intro evs
    induction evs with
    | nil => intro s h _; exact ⟨h, by simp [runEvents, countFails]⟩
    | cons e rest ih =>
        intro s h hle
        cases e with
        | succ =>
            have hs := record_success_closed s h
            have := ih (record_success s) (by rw [hs]; exact h)
              (by rw [hs]; simpa [countFails] using hle)
            refine ⟨this.1, ?_⟩
            rw [show runEvents s (CBEvent.succ :: rest) = runEvents (record_success s) rest from rfl]
            rw [this.2, hs]
            simp [countFails]
        | fail t =>
            have hcf : countFails (CBEvent.fail t :: rest) = countFails rest + 1 := rfl
            rw [hcf] at hle
            have hflt : s.failures + 1 < FAILURE_THRESHOLD := by
              simp [FAILURE_THRESHOLD]; omega
            have hro : (record_failure s t).isOpen = false := by
              rw [record_failure_isOpen_of_lt s t hflt, h]
            have hrf : (record_failure s t).failures = s.failures + 1 :=
              record_failure_failures s t
            have := ih (record_failure s t) hro (by rw [hrf]; omega)
            refine ⟨this.1, ?_⟩
            rw [show runEvents s (CBEvent.fail t :: rest)
              = runEvents (record_failure s t) rest from rfl]
            rw [this.2, hrf]
            omega
  refine ⟨hpart1, hpart2, fun evs s t h h4 => ?_⟩
  have hrun := hpart2 evs s h (le_of_eq h4)
  have happ : runEvents s (evs ++ [CBEvent.fail t])
      = record_failure (runEvents s evs) t := by
    simp [runEvents, applyEvent]
  rw [happ]
  exact record_failure_isOpen_of_ge _ t (by rw [hrun.2, h4]; simp [FAILURE_THRESHOLD])

/-- Witness for C10 at concrete inputs: a success between failures keeps
the failure counter; three failures interleaved with successes leave a
fresh breaker closed at failure count 3; a fifth cumulative failure
opens it despite interleaved successes. -/
theorem C10_cumulative_failures_witness :
    (record_success ⟨3, 0, false, some 5⟩).failures = 3 ∧
    (runEvents ⟨0, 0, false, none⟩
        [CBEvent.fail 1, CBEvent.succ, CBEvent.fail 2, CBEvent.succ,
         CBEvent.fail 3]).isOpen = false ∧
    (runEvents ⟨0, 0, false, none⟩
        [CBEvent.fail 1, CBEvent.succ, CBEvent.fail 2, CBEvent.succ,
         CBEvent.fail 3]).failures = 3 ∧
    (runEvents ⟨0, 0, false, none⟩
        ([CBEvent.fail 1, CBEvent.succ, CBEvent.fail 2, CBEvent.fail 3,
          CBEvent.succ, CBEvent.fail 4] ++ [CBEvent.fail 5])).isOpen = true := by
  refine ⟨(C10_cumulative_failures.1 ⟨3, 0, false, some 5⟩ rfl).1, ?_, ?_, ?_⟩
  · exact (C10_cumulative_failures.2.1
      [CBEvent.fail 1, CBEvent.succ, CBEvent.fail 2, CBEvent.succ, CBEvent.fail 3]
      ⟨0, 0, false, none⟩ rfl (by decide)).1
  · exact (C10_cumulative_failures.2.1
      [CBEvent.fail 1, CBEvent.succ, CBEvent.fail 2, CBEvent.succ, CBEvent.fail 3]
      ⟨0, 0, false, none⟩ rfl (by decide)).2
  · exact C10_cumulative_failures.2.2
      [CBEvent.fail 1, CBEvent.succ, CBEvent.fail 2, CBEvent.fail 3,
       CBEvent.succ, CBEvent.fail 4] ⟨0, 0, false, none⟩ 5 rfl (by decide)

/-! ## Helper lemmas about the retry loops -/

theorem syncGo_fixRuns {A : Type} (behavior : Nat → Except ErrInfo A) (times : Nat → ℚ)
    (mr : Nat) (fb : A) :
    ∀ (k : Nat) (cb : CBState) (bo : ℚ) (s : List ℚ) (c : Nat),
      (syncGo behavior times mr fb k cb bo s c).fixRuns = 0 := by
  intro k
  induction k with
  | zero => intro cb bo s c; rfl
  | succ k ih =>
      intro cb bo s c
      cases hb : behavior (mr - (k + 1)) with
      | ok v => simp [syncGo, hb]
      | error e =>
          by_cases hk : k = 0
          · subst hk; simp [syncGo, hb]
          · simp [syncGo, hb, hk, ih]

theorem syncGo_learned {A : Type} (behavior : Nat → Except ErrInfo A) (times : Nat → ℚ)
    (mr : Nat) (fb : A) :
    ∀ (k : Nat) (cb : CBState) (bo : ℚ) (s : List ℚ) (c : Nat),
      (syncGo behavior times mr fb k cb bo s c).learned = false := by
  intro k
  induction k with
  | zero => intro cb bo s c; rfl
  | succ k ih =>
      intro cb bo s c
      cases hb : behavior (mr - (k + 1)) with
      | ok v => simp [syncGo, hb]
      | error e =>
          by_cases hk : k = 0
          · subst hk; simp [syncGo, hb]
          · simp [syncGo, hb, hk, ih]

theorem asyncGo_value {A : Type} (behavior : Nat → Except ErrInfo A) (times : Nat → ℚ)
    (mr : Nat) (critical : Bool) (fn : String) (fb : A) :
    ∀ (k : Nat) (cb : CBState) (bo : ℚ) (s : List ℚ) (c f : Nat),
      (asyncGo behavior times mr critical fn fb k cb bo s c f).value = fb ∨
      ∃ i, i ≤ mr ∧ behavior i
        = Except.ok (asyncGo behavior times mr critical fn fb k cb bo s c f).value := by
  intro k
  induction k with
  | zero => intro cb bo s c f; left; rfl
  | succ k ih =>
      intro cb bo s c f
      cases hb : behavior (mr - (k + 1)) with
      | ok v =>
          right
          refine ⟨mr - (k + 1), Nat.sub_le _ _, ?_⟩
          rw [hb]
          simp [asyncGo, hb]
      | error e =>
          by_cases hk : k = 0
          · subst hk
            by_cases hc : critical = true
            · by_cases hfx : attempt_auto_fix fn e.etype e.msg = true
              · cases hb2 : behavior mr with
                | ok v2 =>
                    right
                    refine ⟨mr, le_refl _, ?_⟩
                    rw [hb2]
                    simp [asyncGo, hb, hc, hfx, hb2]
                | error e2 => left; simp [asyncGo, hb, hc, hfx, hb2]
              · left; simp [asyncGo, hb, hc, hfx]
            · left; simp [asyncGo, hb, hc]
          · rw [show asyncGo behavior times mr critical fn fb (k + 1) cb bo s c f
                = asyncGo behavior times mr critical fn fb k
                    (record_failure cb (times (mr - (k + 1))))
                    (min (bo * BACKOFF_MULTIPLIER) MAX_BACKOFF) (s ++ [bo]) (c + 1) f from by
              simp [asyncGo, hb, hk]]
            exact ih _ _ _ _ _

theorem syncGo_value {A : Type} (behavior : Nat → Except ErrInfo A) (times : Nat → ℚ)
    (mr : Nat) (fb : A) :
    ∀ (k : Nat), k ≤ mr → ∀ (cb : CBState) (bo : ℚ) (s : List ℚ) (c : Nat),
      (syncGo behavior times mr fb k cb bo s c).value = fb ∨
      ∃ i, i < mr ∧ behavior i
        = Except.ok (syncGo behavior times mr fb k cb bo s c).value := by
  intro k
  induction k with
  | zero => intro _ cb bo s c; left; rfl
  | succ k ih =>
      intro hk cb bo s c
      cases hb : behavior (mr - (k + 1)) with
      | ok v =>
          right
          refine ⟨mr - (k + 1), by omega, ?_⟩
          rw [hb]
          simp [syncGo, hb]
      | error e =>
          by_cases hk0 : k = 0
          · subst hk0; left; simp [syncGo, hb]
          · rw [show syncGo behavior times mr fb (k + 1) cb bo s c
                = syncGo behavior times mr fb k
                    (record_failure cb (times (mr - (k + 1))))
                    (min (bo * BACKOFF_MULTIPLIER) MAX_BACKOFF) (s ++ [bo]) (c + 1) from by
              simp [syncGo, hb, hk0]]
            exact ih (by omega) _ _ _ _

theorem asyncGo_all_fail {A : Type} (behavior : Nat → Except ErrInfo A) (times : Nat → ℚ)
    (mr : Nat) (fn : String) (fb : A)
    (hall : ∀ i, i < mr → ∃ e, behavior i = Except.error e) :
    ∀ (k : Nat), k < mr → ∀ (cb : CBState) (bo : ℚ) (s : List ℚ) (c f : Nat),
      (asyncGo behavior times mr false fn fb (k + 1) cb bo s c f).value = fb ∧
      (asyncGo behavior times mr false fn fb (k + 1) cb bo s c f).calls = c + k + 1 ∧
      (asyncGo behavior times mr false fn fb (k + 1) cb bo s c f).fixRuns = f ∧
      (asyncGo behavior times mr false fn fb (k + 1) cb bo s c f).sleeps
        = s ++ backoffSeq bo k ∧
      (asyncGo behavior times mr false fn fb (k + 1) cb bo s c f).learned = true := by
  intro k
  induction k with
  | zero =>
      intro hk cb bo s c f
      obtain ⟨e, he⟩ := hall (mr - 1) (by omega)
      simp [asyncGo, he, backoffSeq]
  | succ k ih =>
      intro hk cb bo s c f
      obtain ⟨e, he⟩ := hall (mr - (k + 1 + 1)) (by omega)
      rw [show asyncGo behavior times mr false fn fb (k + 1 + 1) cb bo s c f
          = asyncGo behavior times mr false fn fb (k + 1)
              (record_failure cb (times (mr - (k + 1 + 1))))
              (min (bo * BACKOFF_MULTIPLIER) MAX_BACKOFF) (s ++ [bo]) (c + 1) f from by
        simp [asyncGo, he]]
      obtain ⟨h1, h2, h3, h4, h5⟩ := ih (by omega) (record_failure cb (times (mr - (k + 1 + 1))))
        (min (bo * BACKOFF_MULTIPLIER) MAX_BACKOFF) (s ++ [bo]) (c + 1) f
      refine ⟨h1, ?_, h3, ?_, h5⟩
      · rw [h2]; omega
      · rw [h4, backoffSeq, List.append_assoc]; rfl

theorem syncGo_all_fail {A : Type} (behavior : Nat → Except ErrInfo A) (times : Nat → ℚ)
    (mr : Nat) (fb : A)
    (hall : ∀ i, i < mr → ∃ e, behavior i = Except.error e) :
    ∀ (k : Nat), k < mr → ∀ (cb : CBState) (bo : ℚ) (s : List ℚ) (c : Nat),
      (syncGo behavior times mr fb (k + 1) cb bo s c).value = fb ∧
      (syncGo behavior times mr fb (k + 1) cb bo s c).calls = c + k + 1 ∧
      (syncGo behavior times mr fb (k + 1) cb bo s c).sleeps = s ++ backoffSeq bo k := by
  intro k
  induction k with
  | zero =>
      intro hk cb bo s c
      obtain ⟨e, he⟩ := hall (mr - 1) (by omega)
      simp [syncGo, he, backoffSeq]
  | succ k ih =>
      intro hk cb bo s c
      obtain ⟨e, he⟩ := hall (mr - (k + 1 + 1)) (by omega)
      rw [show syncGo behavior times mr fb (k + 1 + 1) cb bo s c
          = syncGo behavior times mr fb (k + 1)
              (record_failure cb (times (mr - (k + 1 + 1))))
              (min (bo * BACKOFF_MULTIPLIER) MAX_BACKOFF) (s ++ [bo]) (c + 1) from by
        simp [syncGo, he]]
      obtain ⟨h1, h2, h3⟩ := ih (by omega) (record_failure cb (times (mr - (k + 1 + 1))))
        (min (bo * BACKOFF_MULTIPLIER) MAX_BACKOFF) (s ++ [bo]) (c + 1)
      refine ⟨h1, ?_, ?_⟩
      · rw [h2]; omega
      · rw [h3, backoffSeq, List.append_assoc]; rfl

theorem asyncGo_critical_fix {A : Type} (behavior : Nat → Except ErrInfo A) (times : Nat → ℚ)
    (mr : Nat) (fn : String) (fb v : A) (elast : ErrInfo)
    (hall : ∀ i, i < mr → ∃ e, behavior i = Except.error e)
    (hlast : behavior (mr - 1) = Except.error elast)
    (hfix : attempt_auto_fix fn elast.etype elast.msg = true)
    (hok : behavior mr = Except.ok v) :
    ∀ (k : Nat), k < mr → ∀ (cb : CBState) (bo : ℚ) (s : List ℚ) (c f : Nat),
      (asyncGo behavior times mr true fn fb (k + 1) cb bo s c f).value = v ∧
      (asyncGo behavior times mr true fn fb (k + 1) cb bo s c f).fixRuns = f + 1 ∧
      (asyncGo behavior times mr true fn fb (k + 1) cb bo s c f).calls = c + k + 2 ∧
      (asyncGo behavior times mr true fn fb (k + 1) cb bo s c f).learned = false := by
  intro k
  induction k with
  | zero =>
      intro hk cb bo s c f
      simp [asyncGo, hlast, hfix, hok]
  | succ k ih =>
      intro hk cb bo s c f
      obtain ⟨e, he⟩ := hall (mr - (k + 1 + 1)) (by omega)
      rw [show asyncGo behavior times mr true fn fb (k + 1 + 1) cb bo s c f
          = asyncGo behavior times mr true fn fb (k + 1)
              (record_failure cb (times (mr - (k + 1 + 1))))
              (min (bo * BACKOFF_MULTIPLIER) MAX_BACKOFF) (s ++ [bo]) (c + 1) f from by
        simp [asyncGo, he]]
      obtain ⟨h1, h2, h3, h4⟩ := ih (by omega) (record_failure cb (times (mr - (k + 1 + 1))))
        (min (bo * BACKOFF_MULTIPLIER) MAX_BACKOFF) (s ++ [bo]) (c + 1) f
      exact ⟨h1, h2, by rw [h3]; omega, h4⟩

theorem asyncGo_critical_fix_fail {A : Type} (behavior : Nat → Except ErrInfo A)
    (times : Nat → ℚ) (mr : Nat) (fn : String) (fb : A) (elast e2 : ErrInfo)
    (hall : ∀ i, i < mr → ∃ e, behavior i = Except.error e)
    (hlast : behavior (mr - 1) = Except.error elast)
    (hfix : attempt_auto_fix fn elast.etype elast.msg = true)
    (hbad : behavior mr = Except.error e2) :
    ∀ (k : Nat), k < mr → ∀ (cb : CBState) (bo : ℚ) (s : List ℚ) (c f : Nat),
      (asyncGo behavior times mr true fn fb (k + 1) cb bo s c f).value = fb ∧
      (asyncGo behavior times mr true fn fb (k + 1) cb bo s c f).fixRuns = f + 1 ∧
      (asyncGo behavior times mr true fn fb (k + 1) cb bo s c f).calls = c + k + 2 ∧
      (asyncGo behavior times mr true fn fb (k + 1) cb bo s c f).learned = true := by
  intro k
  induction k with
  | zero =>
      intro hk cb bo s c f
      simp [asyncGo, hlast, hfix, hbad]
  | succ k ih =>
      intro hk cb bo s c f
      obtain ⟨e, he⟩ := hall (mr - (k + 1 + 1)) (by omega)
      rw [show asyncGo behavior times mr true fn fb (k + 1 + 1) cb bo s c f
          = asyncGo behavior times mr true fn fb (k + 1)
              (record_failure cb (times (mr - (k + 1 + 1))))
              (min (bo * BACKOFF_MULTIPLIER) MAX_BACKOFF) (s ++ [bo]) (c + 1) f from by
        simp [asyncGo, he]]
      obtain ⟨h1, h2, h3, h4⟩ := ih (by omega) (record_failure cb (times (mr - (k + 1 + 1))))
        (min (bo * BACKOFF_MULTIPLIER) MAX_BACKOFF) (s ++ [bo]) (c + 1) f
      exact ⟨h1, h2, by rw [h3]; omega, h4⟩

theorem asyncGo_critical_nofix {A : Type} (behavior : Nat → Except ErrInfo A)
    (times : Nat → ℚ) (mr : Nat) (fn : String) (fb : A) (elast : ErrInfo)
    (hall : ∀ i, i < mr → ∃ e, behavior i = Except.error e)
    (hlast : behavior (mr - 1) = Except.error elast)
    (hfix : attempt_auto_fix fn elast.etype elast.msg = false) :
    ∀ (k : Nat), k < mr → ∀ (cb : CBState) (bo : ℚ) (s : List ℚ) (c f : Nat),
      (asyncGo behavior times mr true fn fb (k + 1) cb bo s c f).value = fb ∧
      (asyncGo behavior times mr true fn fb (k + 1) cb bo s c f).fixRuns = f + 1 ∧
      (asyncGo behavior times mr true fn fb (k + 1) cb bo s c f).calls = c + k + 1 ∧
      (asyncGo behavior times mr true fn fb (k + 1) cb bo s c f).sleeps
        = s ++ backoffSeq bo k ∧
      (asyncGo behavior times mr true fn fb (k + 1) cb bo s c f).learned = true := by
  intro k
  induction k with
  | zero =>
      intro hk cb bo s c f
      simp [asyncGo, hlast, hfix, backoffSeq]
  | succ k ih =>
      intro hk cb bo s c f
      obtain ⟨e, he⟩ := hall (mr - (k + 1 + 1)) (by omega)
      rw [show asyncGo behavior times mr true fn fb (k + 1 + 1) cb bo s c f
          = asyncGo behavior times mr true fn fb (k + 1)
              (record_failure cb (times (mr - (k + 1 + 1))))
              (min (bo * BACKOFF_MULTIPLIER) MAX_BACKOFF) (s ++ [bo]) (c + 1) f from by
        simp [asyncGo, he]]
      obtain ⟨h1, h2, h3, h4, h5⟩ := ih (by omega) (record_failure cb (times (mr - (k + 1 + 1))))
        (min (bo * BACKOFF_MULTIPLIER) MAX_BACKOFF) (s ++ [bo]) (c + 1) f
      refine ⟨h1, h2, by rw [h3]; omega, ?_, h5⟩
      rw [h4, backoffSeq, List.append_assoc]
      rfl

theorem asyncGo_learned_all_fail {A : Type} (behavior : Nat → Except ErrInfo A)
    (times : Nat → ℚ) (mr : Nat) (critical : Bool) (fn : String) (fb : A)
    (hall : ∀ i, i ≤ mr → ∃ e, behavior i = Except.error e) :
    ∀ (k : Nat) (cb : CBState) (bo : ℚ) (s : List ℚ) (c f : Nat),
      (asyncGo behavior times mr critical fn fb k cb bo s c f).learned = true ∧
      (asyncGo behavior times mr critical fn fb k cb bo s c f).value = fb := by
  intro k
  induction k with
  | zero => intro cb bo s c f; exact ⟨rfl, rfl⟩
  | succ k ih =>
      intro cb bo s c f
      obtain ⟨e, he⟩ := hall (mr - (k + 1)) (Nat.sub_le _ _)
      by_cases hk : k = 0
      · subst hk
        by_cases hc : critical = true
        · by_cases hfx : attempt_auto_fix fn e.etype e.msg = true
          · obtain ⟨e2, he2⟩ := hall mr (le_refl _)
            simp [asyncGo, he, hc, hfx, he2]
          · simp [asyncGo, he, hc, hfx]
        · simp [asyncGo, he, hc]
      · simp [asyncGo, he, hk, ih]

/-! ## Helper lemmas about the backoff sequence -/

theorem min_double_cap (b : ℚ) :
    min (min b MAX_BACKOFF * BACKOFF_MULTIPLIER) MAX_BACKOFF
      = min (b * BACKOFF_MULTIPLIER) MAX_BACKOFF := by
  rcases le_total b MAX_BACKOFF with h | h
  · rw [min_eq_left h]
  · have h2 : MAX_BACKOFF ≤ b * BACKOFF_MULTIPLIER := by
      simp only [MAX_BACKOFF, BACKOFF_MULTIPLIER] at h ⊢
      linarith
    rw [min_eq_right h, min_eq_right h2]
    norm_num [MAX_BACKOFF, BACKOFF_MULTIPLIER]

theorem backoffSeq_pow (m : Nat) :
    ∀ j : Nat, backoffSeq (min ((2 : ℚ) ^ j) MAX_BACKOFF) m
      = (List.range m).map (fun i => min ((2 : ℚ) ^ (j + i)) MAX_BACKOFF) := by
  induction m with
  | zero => intro j; rfl
  | succ m ih =>
      intro j
      rw [backoffSeq, min_double_cap ((2 : ℚ) ^ j)]
      have h2 : (2 : ℚ) ^ j * BACKOFF_MULTIPLIER = (2 : ℚ) ^ (j + 1) := by
        rw [pow_succ]
        norm_num [BACKOFF_MULTIPLIER]
      have h3 : (fun i => min ((2 : ℚ) ^ (j + 1 + i)) MAX_BACKOFF)
          = ((fun i => min ((2 : ℚ) ^ (j + i)) MAX_BACKOFF) ∘ Nat.succ) := by
        funext i
        simp only [Function.comp_apply]
        rw [show j + 1 + i = j + Nat.succ i from by omega]
      rw [h2, ih (j + 1), List.range_succ_eq_map, List.map_cons, List.map_map, h3]
      simp

theorem backoffSeq_one (m : Nat) : backoffSeq INITIAL_BACKOFF m = specSleeps m := by
  have h : INITIAL_BACKOFF = min ((2 : ℚ) ^ (0 : Nat)) MAX_BACKOFF := by
    norm_num [INITIAL_BACKOFF, MAX_BACKOFF]
  rw [h, backoffSeq_pow, specSleeps]
  apply List.map_congr_left
  intro i _
  rw [Nat.zero_add]
  rfl

/-! ## C4: the wrapper never propagates an exception -/

/-- C4: for every wrapped operation (async or sync) and every behaviour
of that operation, the wrapper returns a value — the model is total, with
no error channel in its result type — and that value is either the
configured fallback or a result produced by one of the operation's own
invocations (index `maxRetries` being the post-remediation retry of the
async path). -/
theorem C4_no_exception_propagation :
    (∀ (A : Type) (mr : Nat) (fb : A) (critical : Bool) (fn : String)
       (behavior : Nat → Except ErrInfo A) (times : Nat → ℚ) (now : ℚ) (cb : CBState),
       (unstoppable_async mr fb critical fn behavior times now cb).value = fb ∨
       ∃ i, i ≤ mr ∧ behavior i
         = Except.ok (unstoppable_async mr fb critical fn behavior times now cb).value) ∧
    (∀ (A : Type) (mr : Nat) (fb : A) (critical : Bool) (fn : String)
       (behavior : Nat → Except ErrInfo A) (times : Nat → ℚ) (now : ℚ) (cb : CBState),
       (unstoppable_sync mr fb critical fn behavior times now cb).value = fb ∨
       ∃ i, i < mr ∧ behavior i
         = Except.ok (unstoppable_sync mr fb critical fn behavior times now cb).value) := by
  constructor
  · intro A mr fb critical fn behavior times now cb
    by_cases hce : (can_execute cb now).1 = true
    · have hu : unstoppable_async mr fb critical fn behavior times now cb
          = asyncGo behavior times mr critical fn fb mr (can_execute cb now).2
              INITIAL_BACKOFF [] 0 0 := by
        simp [unstoppable_async, hce]
      rw [hu]
      exact asyncGo_value behavior times mr critical fn fb mr
        (can_execute cb now).2 INITIAL_BACKOFF [] 0 0
    · left
      simp [unstoppable_sync, unstoppable_async, hce]
  · intro A mr fb critical fn behavior times now cb
    by_cases hce : (can_execute cb now).1 = true
    · have hu : unstoppable_sync mr fb critical fn behavior times now cb
          = syncGo behavior times mr fb mr (can_execute cb now).2
              INITIAL_BACKOFF [] 0 := by
        simp [unstoppable_sync, hce]
      rw [hu]
      exact syncGo_value behavior times mr fb mr (le_refl mr)
        (can_execute cb now).2 INITIAL_BACKOFF [] 0
    · left
      simp [unstoppable_sync, hce]

/-! ## C6: auto-remediation on the final critical attempt (corrected) -/

/-- C6 counterexample: a critical synchronous operation that fails its
final (and only) attempt never triggers auto-remediation — the sync
wrapper of the source has no remediation branch — contradicting the
claim that remediation runs exactly once for every wrapped operation,
sync or async, with the critical flag set. -/
theorem C6_remediation_counterexample :
    (unstoppable_sync (A := Nat) 1 0 true "f"
      (fun _ => Except.error ⟨"E", "api down"⟩) (fun _ => 10) 0
      ⟨0, 0, false, none⟩).fixRuns = 0 ∧
    ¬ (unstoppable_sync (A := Nat) 1 0 true "f"
      (fun _ => Except.error ⟨"E", "api down"⟩) (fun _ => 10) 0
      ⟨0, 0, false, none⟩).fixRuns = 1 := by
  constructor <;> decide

/-- C6 amended: for an async wrapped operation with the critical flag
whose every retry attempt fails (so its final attempt fails), the
auto-remediation heuristic runs exactly once — whether or not it reports
action taken; when it reports action taken, exactly one additional
attempt of the operation is made (so `max_retries + 1` invocations in
total, whether that extra attempt succeeds or fails), and the extra
attempt's result is returned when it succeeds; when it reports no
action, no additional attempt is made. The sync wrapper, by contrast,
never runs the remediation heuristic. -/
theorem C6_remediation_amended :
    (∀ (A : Type) (mr : Nat) (fb : A) (fn : String)
       (behavior : Nat → Except ErrInfo A) (times : Nat → ℚ) (now : ℚ) (cb : CBState)
       (elast : ErrInfo),
       (can_execute cb now).1 = true → 1 ≤ mr →
       (∀ i, i < mr → ∃ e, behavior i = Except.error e) →
       behavior (mr - 1) = Except.error elast →
       (unstoppable_async mr fb true fn behavior times now cb).fixRuns = 1 ∧
       (attempt_auto_fix fn elast.etype elast.msg = true →
         (unstoppable_async mr fb true fn behavior times now cb).calls = mr + 1) ∧
       (attempt_auto_fix fn elast.etype elast.msg = false →
         (unstoppable_async mr fb true fn behavior times now cb).calls = mr) ∧
       (∀ v : A, attempt_auto_fix fn elast.etype elast.msg = true →
         behavior mr = Except.ok v →
         (unstoppable_async mr fb true fn behavior times now cb).value = v)) ∧
    (∀ (A : Type) (mr : Nat) (fb : A) (critical : Bool) (fn : String)
       (behavior : Nat → Except ErrInfo A) (times : Nat → ℚ) (now : ℚ) (cb : CBState),
       (unstoppable_sync mr fb critical fn behavior times now cb).fixRuns = 0) := by
  constructor
  · intro A mr fb fn behavior times now cb elast hce hmr hall hlast
    obtain ⟨k, rfl⟩ : ∃ k, mr = k + 1 := ⟨mr - 1, by omega⟩
    have hu : unstoppable_async (k + 1) fb true fn behavior times now cb
        = asyncGo behavior times (k + 1) true fn fb (k + 1) (can_execute cb now).2
            INITIAL_BACKOFF [] 0 0 := by
      simp [unstoppable_async, hce]
    rw [hu]
    cases hfx : attempt_auto_fix fn elast.etype elast.msg with
    | false =>
        have h := asyncGo_critical_nofix behavior times (k + 1) fn fb elast hall hlast hfx
          k (by omega) (can_execute cb now).2 INITIAL_BACKOFF [] 0 0
        refine ⟨h.2.1, fun hc => by simp at hc, ?_, fun v hc _ => by simp at hc⟩
        intro _
        rw [h.2.2.1]
        omega
    | true =>
        cases hend : behavior (k + 1) with
        | ok v0 =>
            have h := asyncGo_critical_fix behavior times (k + 1) fn fb v0 elast
              hall hlast hfx hend k (by omega) (can_execute cb now).2 INITIAL_BACKOFF [] 0 0
            refine ⟨h.2.1, fun _ => by rw [h.2.2.1]; omega,
              fun hc => by simp at hc, ?_⟩
            intro v _ hv
            cases hv
            exact h.1
        | error e2 =>
            have h := asyncGo_critical_fix_fail behavior times (k + 1) fn fb elast e2
              hall hlast hfx hend k (by omega) (can_execute cb now).2 INITIAL_BACKOFF [] 0 0
            refine ⟨h.2.1, fun _ => by rw [h.2.2.1]; omega,
              fun hc => by simp at hc, ?_⟩
            intro v _ hv
            cases hv
  · intro A mr fb critical fn behavior times now cb
    by_cases hce : (can_execute cb now).1 = true
    · simp [unstoppable_sync, hce, syncGo_fixRuns]
    · simp [unstoppable_sync, hce]

/-- Witness for C6 amended: one critical async attempt fails with a
rate-limit message, remediation fires exactly once and the extra attempt
returns 42 after 2 invocations in total; a critical async attempt
failing with a message matching no heuristic still runs remediation
exactly once but gets no extra attempt; the sync wrapper under the same
critical flag performs no remediation. -/
theorem C6_remediation_amended_witness :
    (unstoppable_async (A := Nat) 1 0 true "f"
      (fun i => if i = 0 then Except.error ⟨"E", "rate limit"⟩ else Except.ok 42)
      (fun _ => 10) 0 ⟨0, 0, false, none⟩).value = 42 ∧
    (unstoppable_async (A := Nat) 1 0 true "f"
      (fun i => if i = 0 then Except.error ⟨"E", "rate limit"⟩ else Except.ok 42)
      (fun _ => 10) 0 ⟨0, 0, false, none⟩).fixRuns = 1 ∧
    (unstoppable_async (A := Nat) 1 0 true "f"
      (fun i => if i = 0 then Except.error ⟨"E", "rate limit"⟩ else Except.ok 42)
      (fun _ => 10) 0 ⟨0, 0, false, none⟩).calls = 2 ∧
    (unstoppable_async (A := Nat) 1 0 true "f"
      (fun _ => Except.error ⟨"E", "weird failure"⟩)
      (fun _ => 10) 0 ⟨0, 0, false, none⟩).fixRuns = 1 ∧
    (unstoppable_async (A := Nat) 1 0 true "f"
      (fun _ => Except.error ⟨"E", "weird failure"⟩)
      (fun _ => 10) 0 ⟨0, 0, false, none⟩).calls = 1 ∧
    (unstoppable_sync (A := Nat) 1 0 true "f"
      (fun i => if i = 0 then Except.error ⟨"E", "rate limit"⟩ else Except.ok 42)
      (fun _ => 10) 0 ⟨0, 0, false, none⟩).fixRuns = 0 := by
  have h := C6_remediation_amended.1 Nat 1 0 "f"
    (fun i => if i = 0 then Except.error ⟨"E", "rate limit"⟩ else Except.ok 42)
    (fun _ => 10) 0 ⟨0, 0, false, none⟩ ⟨"E", "rate limit"⟩
    rfl (by omega)
    (fun i hi => ⟨⟨"E", "rate limit"⟩, by interval_cases i; rfl⟩)
    rfl
  have h2 := C6_remediation_amended.1 Nat 1 0 "f"
    (fun _ => Except.error ⟨"E", "weird failure"⟩)
    (fun _ => 10) 0 ⟨0, 0, false, none⟩ ⟨"E", "weird failure"⟩
    rfl (by omega)
    (fun i hi => ⟨⟨"E", "weird failure"⟩, rfl⟩)
    rfl
  have hs := C6_remediation_amended.2 Nat 1 0 true "f"
    (fun i => if i = 0 then Except.error ⟨"E", "rate limit"⟩ else Except.ok 42)
    (fun _ => 10) 0 ⟨0, 0, false, none⟩
  exact ⟨h.2.2.2 42 (by decide) rfl, h.1, h.2.1 (by decide),
    h2.1, h2.2.2.1 (by decide), hs⟩

/-! ## C7: attempt count and backoff schedule (corrected) -/

/-- C7 counterexample: a critical async operation whose error message
matches the rate-limit heuristic and which fails every attempt is
invoked `max_retries + 1` = 3 times (the remediation retry), not
exactly `max_retries` = 2 as the claim states for every wrapped
operation. -/
theorem C7_retry_count_counterexample :
    (unstoppable_async (A := Nat) 2 0 true "f"
      (fun _ => Except.error ⟨"RuntimeError", "rate limit exceeded"⟩) (fun _ => 50) 0
      ⟨0, 0, false, none⟩).calls = 3 ∧
    ¬ (unstoppable_async (A := Nat) 2 0 true "f"
      (fun _ => Except.error ⟨"RuntimeError", "rate limit exceeded"⟩) (fun _ => 50) 0
      ⟨0, 0, false, none⟩).calls = 2 := by
  constructor <;> decide

/-- C7 amended: for a wrapped operation that fails on every attempt with
the circuit breaker permitting execution, whenever the operation is not
critical, or is a critical async operation whose remediation reports no
action, or goes through the sync path (which ignores the flag), the
operation is attempted exactly `max_retries` times, the backoff sleeps
between attempts form the doubling sequence 1, 2, 4, ... with each step
capped at 60 seconds, and there is no sleep after the final attempt (the
sleep list has `max_retries - 1` entries); only a critical async
operation whose remediation reports action taken performs one extra
attempt, `max_retries + 1` in total. -/
theorem C7_retry_count_amended :
    (∀ (A : Type) (mr : Nat) (fb : A) (fn : String)
       (behavior : Nat → Except ErrInfo A) (times : Nat → ℚ) (now : ℚ) (cb : CBState),
       (can_execute cb now).1 = true →
       (∀ i, i < mr → ∃ e, behavior i = Except.error e) →
       (unstoppable_async mr fb false fn behavior times now cb).calls = mr ∧
       (unstoppable_async mr fb false fn behavior times now cb).sleeps
         = specSleeps (mr - 1) ∧
       (unstoppable_async mr fb false fn behavior times now cb).value = fb) ∧
    (∀ (A : Type) (mr : Nat) (fb : A) (fn : String)
       (behavior : Nat → Except ErrInfo A) (times : Nat → ℚ) (now : ℚ) (cb : CBState)
       (elast : ErrInfo),
       (can_execute cb now).1 = true →
       (∀ i, i < mr → ∃ e, behavior i = Except.error e) →
       behavior (mr - 1) = Except.error elast →
       attempt_auto_fix fn elast.etype elast.msg = false →
       (unstoppable_async mr fb true fn behavior times now cb).calls = mr ∧
       (unstoppable_async mr fb true fn behavior times now cb).sleeps
         = specSleeps (mr - 1) ∧
       (unstoppable_async mr fb true fn behavior times now cb).value = fb) ∧
    (∀ (A : Type) (mr : Nat) (fb : A) (critical : Bool) (fn : String)
       (behavior : Nat → Except ErrInfo A) (times : Nat → ℚ) (now : ℚ) (cb : CBState),
       (can_execute cb now).1 = true →
       (∀ i, i < mr → ∃ e, behavior i = Except.error e) →
       (unstoppable_sync mr fb critical fn behavior times now cb).calls = mr ∧
       (unstoppable_sync mr fb critical fn behavior times now cb).sleeps
         = specSleeps (mr - 1) ∧
       (unstoppable_sync mr fb critical fn behavior times now cb).value = fb) := by
  refine ⟨?_, ?_, ?_⟩
  · intro A mr fb fn behavior times now cb hce hall
    have hu : unstoppable_async mr fb false fn behavior times now cb
        = asyncGo behavior times mr false fn fb mr (can_execute cb now).2
            INITIAL_BACKOFF [] 0 0 := by
      simp [unstoppable_async, hce]
    rw [hu]
    cases mr with
    | zero => exact ⟨rfl, rfl, rfl⟩
    | succ k =>
        obtain ⟨h1, h2, h3, h4, h5⟩ := asyncGo_all_fail behavior times (k + 1) fn fb hall
          k (by omega) (can_execute cb now).2 INITIAL_BACKOFF [] 0 0
        exact ⟨by rw [h2]; omega, by rw [h4, backoffSeq_one]; simp, h1⟩
  · intro A mr fb fn behavior times now cb elast hce hall hlast hfx
    have hu : unstoppable_async mr fb true fn behavior times now cb
        = asyncGo behavior times mr true fn fb mr (can_execute cb now).2
            INITIAL_BACKOFF [] 0 0 := by
      simp [unstoppable_async, hce]
    rw [hu]
    cases mr with
    | zero => exact ⟨rfl, rfl, rfl⟩
    | succ k =>
        obtain ⟨h1, h2, h3, h4, h5⟩ := asyncGo_critical_nofix behavior times (k + 1) fn fb
          elast hall hlast hfx k (by omega) (can_execute cb now).2 INITIAL_BACKOFF [] 0 0
        exact ⟨by rw [h3]; omega, by rw [h4, backoffSeq_one]; simp, h1⟩
  · intro A mr fb critical fn behavior times now cb hce hall
    have hu : unstoppable_sync mr fb critical fn behavior times now cb
        = syncGo behavior times mr fb mr (can_execute cb now).2
            INITIAL_BACKOFF [] 0 := by
      simp [unstoppable_sync, hce]
    rw [hu]
    cases mr with
    | zero => exact ⟨rfl, rfl, rfl⟩
    | succ k =>
        obtain ⟨h1, h2, h3⟩ := syncGo_all_fail behavior times (k + 1) fb hall
          k (by omega) (can_execute cb now).2 INITIAL_BACKOFF [] 0
        exact ⟨by rw [h2]; omega, by rw [h3, backoffSeq_one]; simp, h1⟩

/-- Witness for C7 amended: three failing non-critical async attempts
sleep 1s then 2s; a critical async call whose error message matches no
remediation heuristic is invoked exactly twice over two attempts; a
two-attempt failing sync call (even flagged critical) is invoked exactly
twice. -/
theorem C7_retry_count_witness :
    (unstoppable_async (A := Nat) 3 7 false "g"
      (fun _ => Except.error ⟨"E", "zz"⟩) (fun _ => 9) 0 ⟨0, 0, false, none⟩).calls = 3 ∧
    (unstoppable_async (A := Nat) 3 7 false "g"
      (fun _ => Except.error ⟨"E", "zz"⟩) (fun _ => 9) 0
      ⟨0, 0, false, none⟩).sleeps = specSleeps 2 ∧
    (unstoppable_async (A := Nat) 3 7 false "g"
      (fun _ => Except.error ⟨"E", "zz"⟩) (fun _ => 9) 0 ⟨0, 0, false, none⟩).value = 7 ∧
    (unstoppable_async (A := Nat) 2 7 true "g"
      (fun _ => Except.error ⟨"E", "zz"⟩) (fun _ => 9) 0 ⟨0, 0, false, none⟩).calls = 2 ∧
    (unstoppable_async (A := Nat) 2 7 true "g"
      (fun _ => Except.error ⟨"E", "zz"⟩) (fun _ => 9) 0
      ⟨0, 0, false, none⟩).sleeps = specSleeps 1 ∧
    (unstoppable_sync (A := Nat) 2 5 true "g"
      (fun _ => Except.error ⟨"E", "zz"⟩) (fun _ => 9) 0 ⟨0, 0, false, none⟩).calls = 2 := by
  have ha := C7_retry_count_amended.1 Nat 3 7 "g" (fun _ => Except.error ⟨"E", "zz"⟩)
    (fun _ => 9) 0 ⟨0, 0, false, none⟩ rfl (fun i _ => ⟨⟨"E", "zz"⟩, rfl⟩)
  have hc := C7_retry_count_amended.2.1 Nat 2 7 "g" (fun _ => Except.error ⟨"E", "zz"⟩)
    (fun _ => 9) 0 ⟨0, 0, false, none⟩ ⟨"E", "zz"⟩ rfl
    (fun i _ => ⟨⟨"E", "zz"⟩, rfl⟩) rfl (by decide)
  have hs := C7_retry_count_amended.2.2 Nat 2 5 true "g" (fun _ => Except.error ⟨"E", "zz"⟩)
    (fun _ => 9) 0 ⟨0, 0, false, none⟩ rfl (fun i _ => ⟨⟨"E", "zz"⟩, rfl⟩)
  exact ⟨ha.1, ha.2.1, ha.2.2, hc.1, hc.2.1, hs.1⟩

/-! ## C9: failure learning before the fallback return (corrected) -/

/-- C9 counterexample: a synchronous wrapped operation whose attempts all
fail returns the fallback without ever invoking `learn_from_failure` —
the sync wrapper of the source has no learning call — contradicting the
claim that one failure-learning record is appended for every wrapped
operation, sync or async. -/
theorem C9_learning_counterexample :
    (unstoppable_sync (A := Nat) 2 0 false "f"
      (fun _ => Except.error ⟨"E", "boom"⟩) (fun _ => 10) 0
      ⟨0, 0, false, none⟩).learned = false := by decide

/-- C9 amended: for an async wrapped operation whose attempts (including
any remediation retry) all fail, `learn_from_failure` is invoked exactly
once before the fallback value is returned; one record (function name,
error message truncated to 500 characters, error-pattern summary) is
appended to the failure-learnings history, which is capped at 100
entries with the oldest evicted, and the learning function is total in
the model so it raises nothing to the wrapper; the sync wrapper returns
its fallback without appending any record. -/
theorem C9_learning_amended :
    (∀ (A : Type) (mr : Nat) (fb : A) (critical : Bool) (fn : String)
       (behavior : Nat → Except ErrInfo A) (times : Nat → ℚ) (now : ℚ) (cb : CBState),
       (can_execute cb now).1 = true →
       (∀ i, i ≤ mr → ∃ e, behavior i = Except.error e) →
       (unstoppable_async mr fb critical fn behavior times now cb).learned = true ∧
       (unstoppable_async mr fb critical fn behavior times now cb).value = fb) ∧
    (∀ (hist : List LearnEntry) (fn msg pats : String),
       (learn_from_failure hist fn msg pats).length ≤ 100 ∧
       (hist.length ≤ 99 →
         learn_from_failure hist fn msg pats
           = hist ++ [⟨fn, takeStr msg 500, pats⟩])) ∧
    (∀ (A : Type) (mr : Nat) (fb : A) (critical : Bool) (fn : String)
       (behavior : Nat → Except ErrInfo A) (times : Nat → ℚ) (now : ℚ) (cb : CBState),
       (unstoppable_sync mr fb critical fn behavior times now cb).learned = false) := by
  refine ⟨?_, ?_, ?_⟩
  · intro A mr fb critical fn behavior times now cb hce hall
    have hu : unstoppable_async mr fb critical fn behavior times now cb
        = asyncGo behavior times mr critical fn fb mr (can_execute cb now).2
            INITIAL_BACKOFF [] 0 0 := by
      simp [unstoppable_async, hce]
    rw [hu]
    exact asyncGo_learned_all_fail behavior times mr critical fn fb hall mr
      (can_execute cb now).2 INITIAL_BACKOFF [] 0 0
  · intro hist fn msg pats
    refine ⟨?_, fun hle => ?_⟩
    · simp only [learn_from_failure, lastN, List.length_drop]
      omega
    · simp only [learn_from_failure, lastN]
      rw [show (hist ++ [(⟨fn, takeStr msg 500, pats⟩ : LearnEntry)]).length - 100 = 0
        from by rw [List.length_append]; simp; omega]
      exact List.drop_zero _
  · intro A mr fb critical fn behavior times now cb
    by_cases hce : (can_execute cb now).1 = true
    · simp [unstoppable_sync, hce, syncGo_learned]
    · simp [unstoppable_sync, hce]

/-- Witness for C9 amended: a single failing async attempt (plus a
failing remediation index) sets the learned flag and returns the
fallback; learning on an empty history appends exactly the one truncated
record; a failing sync call never learns. -/
theorem C9_learning_amended_witness :
    (unstoppable_async (A := Nat) 1 0 false "f"
      (fun _ => Except.error ⟨"E", "x"⟩) (fun _ => 10) 0
      ⟨0, 0, false, none⟩).learned = true ∧
    (unstoppable_async (A := Nat) 1 0 false "f"
      (fun _ => Except.error ⟨"E", "x"⟩) (fun _ => 10) 0
      ⟨0, 0, false, none⟩).value = 0 ∧
    (learn_from_failure [] "f" "m" "p").length ≤ 100 ∧
    learn_from_failure [] "f" "m" "p" = [⟨"f", takeStr "m" 500, "p"⟩] ∧
    (unstoppable_sync (A := Nat) 3 0 true "f"
      (fun _ => Except.error ⟨"E", "x"⟩) (fun _ => 10) 0
      ⟨0, 0, false, none⟩).learned = false := by
  have ha := C9_learning_amended.1 Nat 1 0 false "f"
    (fun _ => Except.error ⟨"E", "x"⟩) (fun _ => 10) 0 ⟨0, 0, false, none⟩
    rfl (fun i _ => ⟨⟨"E", "x"⟩, rfl⟩)
  have hl := C9_learning_amended.2.1 [] "f" "m" "p"
  have hs := C9_learning_amended.2.2 Nat 3 0 true "f"
    (fun _ => Except.error ⟨"E", "x"⟩) (fun _ => 10) 0 ⟨0, 0, false, none⟩
  exact ⟨ha.1, ha.2, hl.1, hl.2 (by decide), hs⟩

/-! ## Helper lemma for accepted patches -/

theorem apply_patch_accepted (checker : String → Bool) (st : ModState) (p : Patch)
    (content : String)
    (h1 : p.old ≠ "") (h2 : p.new ≠ "") (h3 : p.old ≠ p.new)
    (h4 : p.file ∈ MODIFIABLE_FILES)
    (h5 : lookupFile st.files p.file = some content)
    (h6 : containsSub content p.old = true)
    (h7 : checker (replaceFirst content p.old p.new) = true) :
    apply_patch checker st p =
      { files := setFile st.files p.file (replaceFirst content p.old p.new),
        backup := setFile st.backup p.file content } := by
  have hf : p.file ≠ "" := by
    intro h
    rw [h] at h4
    exact absurd h4 (by decide)
  simp [apply_patch, hf, h1, h2, h3, h4, h5, h6, h7]

/-! ## C8: patch validation and first-occurrence replacement -/

/-- C8: a proposed patch is skipped — state returned unchanged, so the
target file stays byte-for-byte identical and no backup entry is created
— whenever the named file is not on the allow-list, the old text is
empty, the old text equals the new text, or the old text does not occur
verbatim in the current on-disk content; and a patch that passes every
check replaces exactly the first occurrence of the old text and rewrites
only that file, backing up the pre-patch content. -/
theorem C8_patch_validation :
    (∀ (checker : String → Bool) (st : ModState) (p : Patch),
       (p.file ∉ MODIFIABLE_FILES ∨ p.old = "" ∨ p.old = p.new ∨
        (∀ content, lookupFile st.files p.file = some content →
          containsSub content p.old = false)) →
       apply_patch checker st p = st) ∧
    (∀ (checker : String → Bool) (st : ModState) (p : Patch) (content : String),
       p.old ≠ "" → p.new ≠ "" → p.old ≠ p.new →
       p.file ∈ MODIFIABLE_FILES →
       lookupFile st.files p.file = some content →
       containsSub content p.old = true →
       checker (replaceFirst content p.old p.new) = true →
       apply_patch checker st p =
         { files := setFile st.files p.file (replaceFirst content p.old p.new),
           backup := setFile st.backup p.file content }) := by
  constructor
  · intro checker st p h
    by_cases h0 : p.file = "" ∨ p.old = "" ∨ p.new = "" ∨ p.old = p.new
    · rw [apply_patch, if_pos h0]
    · rcases h with hml | hold | heq | hnf
      · rw [apply_patch, if_neg h0, if_neg hml]
      · exact absurd (Or.inr (Or.inl hold)) h0
      · exact absurd (Or.inr (Or.inr (Or.inr heq))) h0
      · rw [apply_patch, if_neg h0]
        by_cases hm : p.file ∈ MODIFIABLE_FILES
        · rw [if_pos hm]
          cases hl : lookupFile st.files p.file with
          | none => rfl
          | some content => simp [hnf content hl]
        · rw [if_neg hm]
  · intro checker st p content h1 h2 h3 h4 h5 h6 h7
    exact apply_patch_accepted checker st p content h1 h2 h3 h4 h5 h6 h7

/-- Witness for C8: a patch against a file off the allow-list is a
no-op; an accepted patch on `web_learner.py` rewrites the first
occurrence and backs up the original. -/
theorem C8_patch_validation_witness :
    apply_patch (fun _ => true) ⟨[("bot.py", "aa")], []⟩ ⟨"bot.py", "a", "b"⟩
      = ⟨[("bot.py", "aa")], []⟩ ∧
    apply_patch (fun _ => true) ⟨[("web_learner.py", "xax")], []⟩
        ⟨"web_learner.py", "a", "b"⟩
      = ⟨[("web_learner.py", "xbx")], [("web_learner.py", "xax")]⟩ := by
  constructor
  · exact C8_patch_validation.1 (fun _ => true) ⟨[("bot.py", "aa")], []⟩
      ⟨"bot.py", "a", "b"⟩ (Or.inl (by decide))
  · have h := C8_patch_validation.2 (fun _ => true) ⟨[("web_learner.py", "xax")], []⟩
      ⟨"web_learner.py", "a", "b"⟩ "xax" (by decide) (by decide) (by decide)
      (by decide) (by decide) (by decide) (by decide)
    exact h

/-! ## C3: two patches to the same file in one cycle (corrected) -/

/-- C3 counterexample: two accepted patches to `web_tools.py` whose
original content is "abc": after the cycle the backup entry holds "xbc"
— the intermediate content after the first patch — and not the pre-cycle
original "abc" that the claim requires. -/
theorem C3_double_patch_counterexample :
    lookupFile (apply_patches (fun _ => true)
        ⟨[("web_tools.py", "abc")], []⟩
        [⟨"web_tools.py", "a", "x"⟩, ⟨"web_tools.py", "b", "y"⟩]).backup "web_tools.py"
      = some "xbc" ∧
    ¬ lookupFile (apply_patches (fun _ => true)
        ⟨[("web_tools.py", "abc")], []⟩
        [⟨"web_tools.py", "a", "x"⟩, ⟨"web_tools.py", "b", "y"⟩]).backup "web_tools.py"
      = some "abc" := by
  constructor <;> decide

/-- C3 amended: when one cycle contains two accepted patches to the same
file, both are applied as sequential first-occurrence replacements
against the progressively updated content, but the backup entry for that
file ends up holding the content as of just before the second patch —
the intermediate state after the first patch — because each accepted
patch overwrites the backup entry with the then-current file content,
not the pre-cycle original. -/
theorem C3_double_patch_amended (checker : String → Bool) (st : ModState)
    (p1 p2 : Patch) (orig : String)
    (hfile : p2.file = p1.file)
    (h1 : p1.old ≠ "") (h2 : p1.new ≠ "") (h3 : p1.old ≠ p1.new)
    (h4 : p1.file ∈ MODIFIABLE_FILES)
    (h5 : lookupFile st.files p1.file = some orig)
    (h6 : containsSub orig p1.old = true)
    (h7 : checker (replaceFirst orig p1.old p1.new) = true)
    (g1 : p2.old ≠ "") (g2 : p2.new ≠ "") (g3 : p2.old ≠ p2.new)
    (g6 : containsSub (replaceFirst orig p1.old p1.new) p2.old = true)
    (g7 : checker (replaceFirst (replaceFirst orig p1.old p1.new) p2.old p2.new)
      = true) :
    lookupFile (apply_patches checker st [p1, p2]).files p1.file
      = some (replaceFirst (replaceFirst orig p1.old p1.new) p2.old p2.new) ∧
    lookupFile (apply_patches checker st [p1, p2]).backup p1.file
      = some (replaceFirst orig p1.old p1.new) := by
  have e1 := apply_patch_accepted checker st p1 orig h1 h2 h3 h4 h5 h6 h7
  have hl1 : lookupFile (apply_patch checker st p1).files p2.file
      = some (replaceFirst orig p1.old p1.new) := by
    rw [e1, hfile]
    exact lookup_set_self _ _ _
  have e2 := apply_patch_accepted checker (apply_patch checker st p1) p2
    (replaceFirst orig p1.old p1.new) g1 g2 g3 (hfile ▸ h4) hl1 g6 g7
  have hps : apply_patches checker st [p1, p2]
      = apply_patch checker (apply_patch checker st p1) p2 := rfl
  rw [hps, e2]
  constructor
  · rw [← hfile]
    exact lookup_set_self _ _ _
  · rw [← hfile]
    exact lookup_set_self _ _ _

/-- Witness for C3 amended at the concrete cycle of the counterexample:
the final file content is the sequential replacement result "xyc" and
the backup holds the intermediate "xbc". -/
theorem C3_double_patch_amended_witness :
    lookupFile (apply_patches (fun _ => true)
        ⟨[("web_tools.py", "abc")], []⟩
        [⟨"web_tools.py", "a", "x"⟩, ⟨"web_tools.py", "b", "y"⟩]).files "web_tools.py"
      = some "xyc" ∧
    lookupFile (apply_patches (fun _ => true)
        ⟨[("web_tools.py", "abc")], []⟩
        [⟨"web_tools.py", "a", "x"⟩, ⟨"web_tools.py", "b", "y"⟩]).backup "web_tools.py"
      = some "xbc" := by
  have h := C3_double_patch_amended (fun _ => true)
    ⟨[("web_tools.py", "abc")], []⟩
    ⟨"web_tools.py", "a", "x"⟩ ⟨"web_tools.py", "b", "y"⟩ "abc"
    rfl (by decide) (by decide) (by decide) (by decide) (by decide) (by decide)
    (by decide) (by decide) (by decide) (by decide) (by decide) (by decide)
  exact ⟨h.1, h.2⟩
